import Mathlib

/-!
Verification of the locker library (a header-only C++ file-locking library for
Linux) against its natural-language specification.

The development shallowly embeds the relevant parts of the source:

* the identity-keyed lock registry of the most complete revision
  (struct key_t / struct value_t, the std::map registry, locker::lock,
  locker::unlock and locker::release), with operating-system calls modelled
  as environment records and recorded in an explicit event trace;
* the string-keyed revision of locker::try_lock / locker::unlock and the
  vector overload of try_lock with its rollback loop;
* locker::memory_map_t (element count, checked access);
* the fork-and-increment scenario of test.cpp, as an interleaved transition
  system whose acquire transition models the exclusive kernel flock.

Machine integers of the source (ino_t, dev_t, pid_t, descriptors, sizes) are
modelled as Nat, and the reentrant counter (a C++ int) as Int; no arithmetic
in the modelled code paths can overflow in the scenarios considered.
-/

namespace Locker

/-- Result of a stat or fstat call: the fields of struct stat the source
reads (st_ino, st_dev, st_nlink). -/
structure StatInfo where
  ino : Nat
  dev : Nat
  nlink : Nat
deriving DecidableEq, Repr

/-- Embeds struct key_t: the lock identity, a pair of inode and device
number. -/
structure Key where
  inode : Nat
  device : Nat
deriving DecidableEq, Repr

/-- Embeds the friend operator of key_t in locker.hpp and in the matching
revision: x is less than y iff x.inode < y.inode and x.device < y.device. -/
def keyLt (x y : Key) : Bool :=
  decide (x.inode < y.inode) && decide (x.device < y.device)

/-- Two keys are equivalent for the std::map registry exactly when neither
compares less than the other under keyLt. -/
def keyEquiv (x y : Key) : Bool :=
  !keyLt x y && !keyLt y x

/-- Embeds struct value_t: descriptor, reentrant count and owning pid. -/
structure Value where
  descriptor : Nat
  numLocks : Int
  pid : Nat
deriving DecidableEq, Repr

/-- The registry std::map of key_t to value_t, modelled as an association
list; all lookups go through the comparator-induced equivalence, mirroring
how std::map locates keys. -/
abbrev Registry := List (Key × Value)

/-- Lookup in the registry: the first entry whose key is equivalent to the
probe under the map comparator. -/
def mapFind : Registry → Key → Option (Key × Value)
  | [], _ => none
  | e :: r, k => if keyEquiv e.1 k then some e else mapFind r k

/-- Embeds std::map::contains on the registry. -/
def mapContains (r : Registry) (k : Key) : Bool :=
  (mapFind r k).isSome

/-- Mutation through std::map::at: updates the entry equivalent to the
probe key (the stored key is left unchanged). -/
def mapUpdate : Registry → Key → (Value → Value) → Registry
  | [], _, _ => []
  | e :: r, k, f => if keyEquiv e.1 k then (e.1, f e.2) :: r else e :: mapUpdate r k f

/-- Embeds std::map::erase by key: removes the entry equivalent to the
probe key. -/
def mapErase : Registry → Key → Registry
  | [], _ => []
  | e :: r, k => if keyEquiv e.1 k then r else e :: mapErase r k

/-- Embeds std::map::emplace: inserts only when no equivalent key is
present. -/
def mapInsert (r : Registry) (k : Key) (v : Value) : Registry :=
  if mapContains r k then r else (k, v) :: r

/-- System calls issued by the embedded code, recorded in order. -/
inductive Event
  | openSys (name : String)
  | fstatSys (fd : Nat)
  | flockSys (fd : Nat)
  | statSys (name : String)
  | closeSys (fd : Nat)
  | fsyncSys (fd : Nat)
  | readlinkSys (fd : Nat)
  | lseekSys (fd : Nat)
  | unlinkSys (name : String)
deriving DecidableEq, Repr

/-- Error classes raised by the embedded code, matching the runtime_error
messages of the source grouped by the taxonomy of the specification. -/
inductive LockerError
  | invalidName
  | notRegularFile
  | permissionDenied
  | openFail
  | fstatFail
  | flockFail
  | statFail
  | matchFail
  | fsyncFail
  | lseekFail
  | unlinkFail
  | closeFail
  | readlinkFail
  | eraseFail
  | mmapFail
  | indexOutOfRange
deriving DecidableEq, Repr

/-- Environment for one iteration of the acquisition loop of the
identity-keyed locker::lock: the results the kernel returns for open,
fstat on the new descriptor, flock, and the re-stat of the path. -/
structure LockTry where
  openResult : Option Nat
  fstatResult : Option StatInfo
  flockOk : Bool
  restatResult : Option StatInfo
deriving Repr

/-- The kernel-lock phase of one iteration of locker::lock, entered after
the registry check: flock the descriptor, re-stat the path, and compare the
current identity of the path with the identity captured at open time.
Returns none on identity mismatch (close and restart the loop). -/
def lockKernel (pid : Nat) (filename : String) (r : Registry) (fd : Nat)
    (st : StatInfo) (flockOk : Bool) (restat : Option StatInfo)
    (pre : List Event) :
    Option (Except LockerError (Key × Value)) × Registry × List Event :=
  if flockOk then
    match restat with
    | some ns =>
      if 0 < ns.nlink ∧ ns.ino = st.ino ∧ ns.dev = st.dev then
        let id : Key := ⟨st.ino, st.dev⟩
        let v : Value := ⟨fd, 1, pid⟩
        (some (Except.ok (id, v)), mapInsert r id v,
          pre ++ [Event.flockSys fd, Event.statSys filename])
      else
        (none, r, pre ++ [Event.flockSys fd, Event.statSys filename, Event.closeSys fd])
    | none =>
      (none, r, pre ++ [Event.flockSys fd, Event.statSys filename, Event.closeSys fd])
  else
    (some (Except.error LockerError.flockFail), r,
      pre ++ [Event.flockSys fd, Event.closeSys fd])

/-- One iteration of the while loop of the identity-keyed locker::lock:
open the path, fstat the descriptor, consult the registry (reentrant
increment on a matching pid, erase on a foreign pid), then the kernel-lock
phase. The first component is none when the loop must run again. -/
def lockStep (pid : Nat) (filename : String) (r : Registry) (e : LockTry) :
    Option (Except LockerError (Key × Value)) × Registry × List Event :=
  match e.openResult with
  | none => (some (Except.error LockerError.openFail), r, [Event.openSys filename])
  | some fd =>
    match e.fstatResult with
    | none =>
      (some (Except.error LockerError.fstatFail), r,
        [Event.openSys filename, Event.fstatSys fd, Event.closeSys fd])
    | some st =>
      let id : Key := ⟨st.ino, st.dev⟩
      match mapFind r id with
      | some kv =>
        if kv.2.pid = pid then
          (some (Except.ok (id, ⟨kv.2.descriptor, kv.2.numLocks + 1, kv.2.pid⟩)),
            mapUpdate r id (fun w => ⟨w.descriptor, w.numLocks + 1, w.pid⟩),
            [Event.openSys filename, Event.fstatSys fd, Event.closeSys fd])
        else
          lockKernel pid filename (mapErase r id) fd st e.flockOk e.restatResult
            [Event.openSys filename, Event.fstatSys fd]
      | none =>
        lockKernel pid filename r fd st e.flockOk e.restatResult
          [Event.openSys filename, Event.fstatSys fd]

/-- The full acquisition loop of locker::lock, iterated over a list of
per-iteration environments (the loop body runs once per list element; an
exhausted list means the protocol is still looping). -/
def lockLoop (pid : Nat) (filename : String) :
    Registry → List LockTry →
    Option (Except LockerError (Key × Value)) × Registry × List Event
  | r, [] => (none, r, [])
  | r, e :: es =>
    match lockStep pid filename r e with
    | (some res, r', evs) => (some res, r', evs)
    | (none, r', evs) =>
      let rest := lockLoop pid filename r' es
      (rest.1, rest.2.1, evs ++ rest.2.2)

/-- Environment for one run of locker::release: the results the kernel
returns for fstat on the descriptor, readlink on /proc/self/fd/N, stat on
the recovered filename, fsync, lseek to the end, unlink and close. -/
structure ReleaseEnv where
  fstatResult : Option StatInfo
  readlinkResult : Option String
  statResult : Option StatInfo
  fsyncOk : Bool
  lseekResult : Option Nat
  unlinkOk : Bool
  closeOk : Bool
deriving Repr

/-- Embeds locker::release of the revision with the should_keep_empty
template argument: fstat the descriptor, recover the filename by readlink;
when the descriptor is still linked and empty lockfiles are not kept, stat
the filename, require it to match the descriptor identity, fsync, lseek to
learn the size, unlink when the size is zero, and close; when the
descriptor is no longer linked, only close. Returns the recovered filename
together with the trace of system calls. -/
def release (keepEmpty : Bool) (descriptor : Nat) (e : ReleaseEnv) :
    Except LockerError String × List Event :=
  match e.fstatResult with
  | none => (Except.error LockerError.fstatFail, [Event.fstatSys descriptor])
  | some dstat =>
    match e.readlinkResult with
    | none =>
      (Except.error LockerError.readlinkFail,
        [Event.fstatSys descriptor, Event.readlinkSys descriptor])
    | some filename =>
      let pre := [Event.fstatSys descriptor, Event.readlinkSys descriptor]
      if 0 < dstat.nlink then
        if keepEmpty then
          if e.fsyncOk then
            if e.closeOk then
              (Except.ok filename, pre ++ [Event.fsyncSys descriptor, Event.closeSys descriptor])
            else
              (Except.error LockerError.closeFail,
                pre ++ [Event.fsyncSys descriptor, Event.closeSys descriptor])
          else
            (Except.error LockerError.fsyncFail, pre ++ [Event.fsyncSys descriptor])
        else
          match e.statResult with
          | none =>
            (Except.error LockerError.statFail, pre ++ [Event.statSys filename])
          | some lstat =>
            if dstat.dev = lstat.dev ∧ dstat.ino = lstat.ino then
              if e.fsyncOk then
                match e.lseekResult with
                | none =>
                  (Except.error LockerError.lseekFail,
                    pre ++ [Event.statSys filename, Event.fsyncSys descriptor,
                      Event.lseekSys descriptor])
                | some size =>
                  if size = 0 then
                    if e.unlinkOk then
                      if e.closeOk then
                        (Except.ok filename,
                          pre ++ [Event.statSys filename, Event.fsyncSys descriptor,
                            Event.lseekSys descriptor, Event.unlinkSys filename,
                            Event.closeSys descriptor])
                      else
                        (Except.error LockerError.closeFail,
                          pre ++ [Event.statSys filename, Event.fsyncSys descriptor,
                            Event.lseekSys descriptor, Event.unlinkSys filename,
                            Event.closeSys descriptor])
                    else
                      (Except.error LockerError.unlinkFail,
                        pre ++ [Event.statSys filename, Event.fsyncSys descriptor,
                          Event.lseekSys descriptor, Event.unlinkSys filename])
                  else
                    if e.closeOk then
                      (Except.ok filename,
                        pre ++ [Event.statSys filename, Event.fsyncSys descriptor,
                          Event.lseekSys descriptor, Event.closeSys descriptor])
                    else
                      (Except.error LockerError.closeFail,
                        pre ++ [Event.statSys filename, Event.fsyncSys descriptor,
                          Event.lseekSys descriptor, Event.closeSys descriptor])
              else
                (Except.error LockerError.fsyncFail,
                  pre ++ [Event.statSys filename, Event.fsyncSys descriptor])
            else
              (Except.error LockerError.matchFail, pre ++ [Event.statSys filename])
      else
        if e.closeOk then
          (Except.ok filename, pre ++ [Event.closeSys descriptor])
        else
          (Except.error LockerError.closeFail, pre ++ [Event.closeSys descriptor])

/-- Embeds the identity-keyed locker::unlock: when the identity is in the
registry, decrement its reentrant count; when the count reaches zero, run
locker::release on the stored descriptor and erase the entry. Returns the
registry after the call (also on the error paths, where the decrement has
already happened) and the trace of system calls. -/
def unlock (keepEmpty : Bool) (r : Registry) (id : Key) (e : ReleaseEnv) :
    Except LockerError Unit × Registry × List Event :=
  match mapFind r id with
  | none => (Except.ok (), r, [])
  | some kv =>
    let r1 := mapUpdate r id (fun w => ⟨w.descriptor, w.numLocks - 1, w.pid⟩)
    if kv.2.numLocks - 1 ≤ 0 then
      match release keepEmpty kv.2.descriptor e with
      | (Except.ok _, evs) =>
        let r2 := mapErase r1 id
        if r2.length = r1.length then (Except.error LockerError.eraseFail, r2, evs)
        else (Except.ok (), r2, evs)
      | (Except.error err, evs) => (Except.error err, r1, evs)
    else
      (Except.ok (), r1, [])

/-- The string-keyed registry of the earlier revisions: a std::map from
filename to descriptor, modelled as an association list. -/
abbrev SRegistry := List (String × Nat)

/-- Environment for the string-keyed try_lock: whether the directory and
file checks pass, the descriptor open returns, and whether the
non-blocking flock succeeds (false when another process holds the lock). -/
structure FsEnv where
  dirOk : String → Bool
  fileOk : String → Bool
  openFd : String → Option Nat
  flockFree : String → Bool

/-- Characters of the longest prefix of a name that lies strictly before
its last slash, or none when the name has no slash. -/
def beforeLastSlash : List Char → Option (List Char)
  | [] => none
  | c :: cs =>
    match beforeLastSlash cs with
    | some d => some (c :: d)
    | none => if c = '/' then some [] else none

/-- Embeds the dirname computation of the string-keyed try_lock of the
revision that strips trailing slashes: the prefix before the last slash,
defaulting to a dot. -/
def dirnameOf (s : String) : String :=
  match beforeLastSlash s.toList with
  | some d => String.mk d
  | none => "."

/-- Embeds the path_to_file computation of the try_lock revision that
rejects trailing slashes: the prefix up to and including the last slash,
defaulting to a dot-slash. -/
def pathToFile (s : String) : String :=
  match beforeLastSlash s.toList with
  | some d => String.mk (d ++ ['/'])
  | none => "./"

/-- Embeds the while loop that pops trailing slash characters off the
filename in the string-keyed try_lock. -/
def stripSlashes (s : String) : String :=
  String.mk ((s.toList.reverse.dropWhile fun c => c == '/').reverse)

/-- Last character of a string, if any. -/
def lastChar (s : String) : Option Char :=
  s.toList.getLast?

/-- Embeds the string-keyed single-file locker::try_lock of the revision
that strips trailing slashes (the one whose vector overload returns a
bool): strip slashes, reject an empty name, succeed at once when the name
is already registered, check directory and file permissions, open, flock
without blocking, and register the descriptor on success. -/
def tryLockOne (env : FsEnv) (r : SRegistry) (filename : String) :
    Except LockerError (Bool × SRegistry) × List Event :=
  let fn := stripSlashes filename
  if fn.isEmpty then (Except.error LockerError.invalidName, [])
  else if r.any fun p => p.1 == fn then (Except.ok (true, r), [])
  else if !(env.dirOk (dirnameOf fn) && env.fileOk fn) then
    (Except.error LockerError.permissionDenied,
      [Event.statSys (dirnameOf fn), Event.statSys fn])
  else
    match env.openFd fn with
    | none =>
      (Except.ok (false, r),
        [Event.statSys (dirnameOf fn), Event.statSys fn, Event.openSys fn])
    | some fd =>
      if env.flockFree fn then
        (Except.ok (true, (fn, fd) :: r),
          [Event.statSys (dirnameOf fn), Event.statSys fn, Event.openSys fn,
            Event.flockSys fd])
      else
        (Except.ok (false, r),
          [Event.statSys (dirnameOf fn), Event.statSys fn, Event.openSys fn,
            Event.flockSys fd, Event.closeSys fd])

/-- Embeds the string-keyed single-file locker::unlock: return silently on
an empty name, otherwise close and erase the registered descriptor when
present. -/
def unlockOne (r : SRegistry) (filename : String) : SRegistry × List Event :=
  if filename.isEmpty then (r, [])
  else
    match r.find? fun p => p.1 == filename with
    | some p => (r.filter fun q => !(q.1 == filename), [Event.closeSys p.2])
    | none => (r, [])

/-- Embeds the string-keyed locker::try_lock of the earliest revision,
which validates the name first: an empty name or a name ending in a slash
raises the invalid-name error before any system call. -/
def tryLockValidating (env : FsEnv) (r : SRegistry) (filename : String) :
    Except LockerError (Bool × SRegistry) × List Event :=
  if filename.isEmpty || lastChar filename == some '/' then
    (Except.error LockerError.invalidName, [])
  else if r.any fun p => p.1 == filename then (Except.ok (true, r), [])
  else if !(env.dirOk (pathToFile filename) && env.fileOk filename) then
    (Except.error LockerError.permissionDenied,
      [Event.statSys (pathToFile filename), Event.statSys filename])
  else
    match env.openFd filename with
    | none =>
      (Except.ok (false, r),
        [Event.statSys (pathToFile filename), Event.statSys filename,
          Event.openSys filename])
    | some fd =>
      if env.flockFree filename then
        (Except.ok (true, (filename, fd) :: r),
          [Event.statSys (pathToFile filename), Event.statSys filename,
            Event.openSys filename, Event.flockSys fd])
      else
        (Except.ok (false, r),
          [Event.statSys (pathToFile filename), Event.statSys filename,
            Event.openSys filename, Event.flockSys fd, Event.closeSys fd])

/-- The loop body of the vector overload of try_lock with rollback: on the
first single-file failure, unlock the already-acquired names in reverse
order of acquisition and report false together with the rollback order.
The acc argument carries the names acquired so far, oldest first. -/
def tryLockVecAux (env : FsEnv) :
    SRegistry → List String → List String →
    Except LockerError (Bool × SRegistry × List String)
  | r, _, [] => Except.ok (true, r, [])
  | r, acc, fn :: rest =>
    match tryLockOne env r fn with
    | (Except.error err, _) => Except.error err
    | (Except.ok (true, r'), _) => tryLockVecAux env r' (acc ++ [fn]) rest
    | (Except.ok (false, r'), _) =>
      let rollback := acc.reverse
      Except.ok (false, rollback.foldl (fun s n => (unlockOne s n).1) r', rollback)

/-- Embeds the vector overload of locker::try_lock of the revision that
returns a bool: acquire in the given order and, on the first failure,
release the already-acquired names in reverse order and return false. -/
def tryLockVec (env : FsEnv) (r : SRegistry) (fs : List String) :
    Except LockerError (Bool × SRegistry × List String) :=
  tryLockVecAux env r [] fs

/-- Environment for the construction of locker::memory_map_t: existence
and regularity of the file, its contents as bytes (none when fstat fails)
and the mmap outcome. -/
structure MMapEnv where
  fileExists : Bool
  isRegular : Bool
  fstatBytes : Option (List Nat)
  mmapOk : Bool

/-- A constructed memory-mapped view: the element width chosen at
instantiation, the mapped bytes, and the derived element count. -/
structure MemoryMap where
  elemWidth : Nat
  bytes : List Nat
  dataSize : Nat
deriving DecidableEq, Repr

/-- Embeds the locker::memory_map_t constructor: reject a name that is
empty, missing or not a regular file; fstat determines the size; the
element count is the byte size divided by the element width (truncating
division, as in the source); then mmap. -/
def xmapInit (w : Nat) (filename : String) (e : MMapEnv) :
    Except LockerError MemoryMap :=
  if filename.isEmpty || !e.fileExists || !e.isRegular then
    Except.error LockerError.notRegularFile
  else
    match e.fstatBytes with
    | none => Except.error LockerError.fstatFail
    | some bs =>
      if e.mmapOk then Except.ok ⟨w, bs, bs.length / w⟩
      else Except.error LockerError.mmapFail

/-- Embeds memory_map_t::at: checked element access, raising the
index-out-of-range error exactly when the index is not below the element
count; in-range access yields the bytes of the selected element. -/
def MemoryMap.atIdx (m : MemoryMap) (i : Nat) : Except LockerError (List Nat) :=
  if m.dataSize ≤ i then Except.error LockerError.indexOutOfRange
  else Except.ok ((m.bytes.drop (i * m.elemWidth)).take m.elemWidth)

/-- Program counter of one forked child of test.cpp: waiting to construct
the lock guard, holding the lock, holding after reading the counter,
holding after writing the incremented counter, or finished (guard
destroyed). -/
inductive PState
  | idle
  | acquired
  | hasRead (d : Nat)
  | written
  | done
deriving DecidableEq, Repr

/-- Global state of the fork-and-increment test: the per-process program
counters, the integer stored in the shared file, and the owner of the
exclusive kernel flock on the lockfile (none when unlocked). -/
structure SysState (n : Nat) where
  procs : Fin n → PState
  file : Nat
  owner : Option (Fin n)

/-- Contribution of one process to the number of completed writes. -/
def countVal : PState → Nat
  | PState.written => 1
  | PState.done => 1
  | _ => 0

/-- Number of processes that have already written their incremented
value. -/
def writtenCount {n : Nat} (s : SysState n) : Nat :=
  Finset.univ.sum fun i => countVal (s.procs i)

/-- Interleaving semantics of the test.cpp scenario: each child constructs
the lock guard (the exclusive kernel flock admits an acquire only when no
process owns it), reads the shared counter, writes the incremented value,
and releases the lock when the guard is destroyed. Any interleaving of the
children is allowed. -/
inductive CStep {n : Nat} : SysState n → SysState n → Prop
  | acquire (s : SysState n) (i : Fin n) :
      s.procs i = PState.idle → s.owner = none →
      CStep s ⟨Function.update s.procs i PState.acquired, s.file, some i⟩
  | readFile (s : SysState n) (i : Fin n) :
      s.procs i = PState.acquired →
      CStep s ⟨Function.update s.procs i (PState.hasRead s.file), s.file, s.owner⟩
  | writeFile (s : SysState n) (i : Fin n) (d : Nat) :
      s.procs i = PState.hasRead d →
      CStep s ⟨Function.update s.procs i PState.written, d + 1, s.owner⟩
  | releaseLock (s : SysState n) (i : Fin n) :
      s.procs i = PState.written →
      CStep s ⟨Function.update s.procs i PState.done, s.file, none⟩

/-- Initial state of the test: the file holds zero, no process holds the
lock, every child is about to construct its guard. -/
def initState (n : Nat) : SysState n :=
  ⟨fun _ => PState.idle, 0, none⟩

/-- Predicate for the holding program counters (guard constructed, not yet
destroyed). -/
def isHolding : PState → Prop
  | PState.acquired => True
  | PState.hasRead _ => True
  | PState.written => True
  | _ => False

/-- The inductive invariant of the fork-and-increment test: the shared
file holds the number of completed writes, every holding process is the
flock owner, and a process that has read the counter read its current
value. -/
structure CInv {n : Nat} (s : SysState n) : Prop where
  fileCount : s.file = writtenCount s
  holderOwner : ∀ i : Fin n, isHolding (s.procs i) → s.owner = some i
  readVal : ∀ i : Fin n, ∀ d : Nat, s.procs i = PState.hasRead d → d = s.file

theorem sum_countVal_update {n : Nat} (f : Fin n → PState) (i : Fin n) (v : PState) :
    (Finset.univ.sum fun j => countVal (Function.update f i v j)) + countVal (f i) =
      (Finset.univ.sum fun j => countVal (f j)) + countVal v := by
  have hfun : (fun j => countVal (Function.update f i v j)) =
      Function.update (fun j => countVal (f j)) i (countVal v) := by
    funext j
    by_cases h : j = i <;> simp [Function.update_apply, h]
  rw [hfun, Finset.sum_update_of_mem (Finset.mem_univ i),
    Finset.sum_eq_sum_diff_singleton_add (Finset.mem_univ i) fun j => countVal (f j)]
  omega

theorem cinv_init (n : Nat) : CInv (initState n) := by
  refine ⟨?_, ?_, ?_⟩
  · simp [initState, writtenCount, countVal]
  · intro i h
    simp [initState, isHolding] at h
  · intro i d h
    simp [initState] at h

theorem cinv_step {n : Nat} {s t : SysState n} (h : CStep s t) (hinv : CInv s) :
    CInv t := by
  have hfc := hinv.fileCount
  unfold writtenCount at hfc
  cases h with
  | acquire i hpc hown =>
    have hsum := sum_countVal_update s.procs i PState.acquired
    rw [hpc] at hsum
    have e1 : countVal PState.idle = 0 := rfl
    have e2 : countVal PState.acquired = 0 := rfl
    rw [e1, e2] at hsum
    refine ⟨?_, ?_, ?_⟩
    · show s.file = Finset.univ.sum fun j => countVal (Function.update s.procs i PState.acquired j)
      omega
    · intro j hj
      show some i = some j
      dsimp only at hj
      by_cases hji : j = i
      · rw [hji]
      · rw [Function.update_noteq hji] at hj
        have h1 := hinv.holderOwner j hj
        rw [hown] at h1
        cases h1
    · intro j d hj
      show d = s.file
      dsimp only at hj
      by_cases hji : j = i
      · rw [hji, Function.update_same] at hj
        simp at hj
      · rw [Function.update_noteq hji] at hj
        exact hinv.readVal j d hj
  | readFile i hpc =>
    have howner : s.owner = some i := hinv.holderOwner i (by rw [hpc]; exact trivial)
    have hsum := sum_countVal_update s.procs i (PState.hasRead s.file)
    rw [hpc] at hsum
    have e1 : countVal PState.acquired = 0 := rfl
    have e2 : countVal (PState.hasRead s.file) = 0 := rfl
    rw [e1, e2] at hsum
    refine ⟨?_, ?_, ?_⟩
    · show s.file = Finset.univ.sum fun j => countVal (Function.update s.procs i (PState.hasRead s.file) j)
      omega
    · intro j hj
      show s.owner = some j
      dsimp only at hj
      by_cases hji : j = i
      · rw [hji]; exact howner
      · rw [Function.update_noteq hji] at hj
        exact hinv.holderOwner j hj
    · intro j d hj
      show d = s.file
      dsimp only at hj
      by_cases hji : j = i
      · rw [hji, Function.update_same] at hj
        injection hj with h1
        exact h1.symm
      · rw [Function.update_noteq hji] at hj
        exact hinv.readVal j d hj
  | writeFile i d hpc =>
    have howner : s.owner = some i := hinv.holderOwner i (by rw [hpc]; exact trivial)
    have hd : d = s.file := hinv.readVal i d hpc
    have hsum := sum_countVal_update s.procs i PState.written
    rw [hpc] at hsum
    have e1 : countVal (PState.hasRead d) = 0 := rfl
    have e2 : countVal PState.written = 1 := rfl
    rw [e1, e2] at hsum
    refine ⟨?_, ?_, ?_⟩
    · show d + 1 = Finset.univ.sum fun j => countVal (Function.update s.procs i PState.written j)
      omega
    · intro j hj
      show s.owner = some j
      dsimp only at hj
      by_cases hji : j = i
      · rw [hji]; exact howner
      · rw [Function.update_noteq hji] at hj
        exact hinv.holderOwner j hj
    · intro j d' hj
      show d' = d + 1
      dsimp only at hj
      by_cases hji : j = i
      · rw [hji, Function.update_same] at hj
        simp at hj
      · rw [Function.update_noteq hji] at hj
        have h1 := hinv.holderOwner j (by rw [hj]; exact trivial)
        rw [howner] at h1
        injection h1 with h2
        exact absurd h2.symm hji
  | releaseLock i hpc =>
    have howner : s.owner = some i := hinv.holderOwner i (by rw [hpc]; exact trivial)
    have hsum := sum_countVal_update s.procs i PState.done
    rw [hpc] at hsum
    have e1 : countVal PState.written = 1 := rfl
    have e2 : countVal PState.done = 1 := rfl
    rw [e1, e2] at hsum
    refine ⟨?_, ?_, ?_⟩
    · show s.file = Finset.univ.sum fun j => countVal (Function.update s.procs i PState.done j)
      omega
    · intro j hj
      show none = some j
      dsimp only at hj
      by_cases hji : j = i
      · rw [hji, Function.update_same] at hj
        simp [isHolding] at hj
      · rw [Function.update_noteq hji] at hj
        have h1 := hinv.holderOwner j hj
        rw [howner] at h1
        injection h1 with h2
        exact absurd h2.symm hji
    · intro j d hj
      show d = s.file
      dsimp only at hj
      by_cases hji : j = i
      · rw [hji, Function.update_same] at hj
        simp at hj
      · rw [Function.update_noteq hji] at hj
        exact hinv.readVal j d hj

theorem cinv_reachable {n : Nat} {s : SysState n}
    (h : Relation.ReflTransGen CStep (initState n) s) : CInv s := by
  induction h with
  | refl => exact cinv_init n
  | tail _ hbc ih => exact cinv_step hbc ih

theorem keyEquiv_self (k : Key) : keyEquiv k k = true := by
  simp [keyEquiv, keyLt]

theorem mapContains_insert_self (r : Registry) (k : Key) (v : Value) :
    mapContains (mapInsert r k v) k = true := by
  unfold mapInsert
  by_cases h : mapContains r k
  · rw [if_pos h]
    exact h
  · rw [if_neg h]
    unfold mapContains mapFind
    rw [keyEquiv_self]
    rfl

/-- Claim C9: the registry ordering on lock identities is the conjunction
of the two strict componentwise comparisons and is not a strict weak
ordering: the identities with inode 5 and devices 1 and 2 are distinct yet
neither is below the other; incomparability fails to be transitive (the
identities (1,1) and (1,2) are incomparable, so are (1,2) and (2,2), yet
(1,1) is strictly below (2,2)); consequently the std::map registry treats
two different filesystem objects as the same key: a lookup with identity
(5,2) finds the entry stored for identity (5,1), so both share one lock
entry. -/
theorem claim9_key_order_not_strict_weak :
    (keyLt ⟨5, 1⟩ ⟨5, 2⟩ = false ∧ keyLt ⟨5, 2⟩ ⟨5, 1⟩ = false ∧
      (⟨5, 1⟩ : Key) ≠ ⟨5, 2⟩) ∧
    (keyEquiv ⟨1, 1⟩ ⟨1, 2⟩ = true ∧ keyEquiv ⟨1, 2⟩ ⟨2, 2⟩ = true ∧
      keyLt ⟨1, 1⟩ ⟨2, 2⟩ = true) ∧
    mapFind [(⟨5, 1⟩, ⟨3, 1, 7⟩)] ⟨5, 2⟩ = some (⟨5, 1⟩, ⟨3, 1, 7⟩) ∧
    mapContains [(⟨5, 1⟩, ⟨3, 1, 7⟩)] ⟨5, 2⟩ = true := by
  decide

/-- Counterexample to claim C3 as stated: a release that brings the count
to zero, with empty-lockfile cleanup enabled, on a descriptor whose file
was deleted externally (fstat reports link count zero) performs no fsync
at all: the trace is fstat, readlink, close, with no fsync event, although
the claim demands an fsync on every such release. -/
theorem claim3_counterexample :
    unlock false [(⟨1, 1⟩, ⟨3, 1, 7⟩)] ⟨1, 1⟩
        ⟨some ⟨1, 1, 0⟩, some "a.lock", none, true, none, true, true⟩ =
      (Except.ok (), [], [Event.fstatSys 3, Event.readlinkSys 3, Event.closeSys 3]) ∧
    Event.fsyncSys 3 ∉ [Event.fstatSys 3, Event.readlinkSys 3, Event.closeSys 3] :=
  ⟨rfl, by decide⟩

/-- Claim C3 amended: when a release brings the count to zero, empty
lockfiles are not kept, and the descriptor is still linked, the release
stats and matches the recovered path, fsyncs the descriptor, then — the
current size being zero — unlinks the file, then closes the descriptor,
then erases the registry entry, in exactly that order; when the descriptor
is no longer linked the release only closes the descriptor and erases the
entry, with no fsync and no unlink. -/
theorem claim3_release_order (id : Key) (d p : Nat) (fn : String)
    (st : StatInfo) (hn : 0 < st.nlink) :
    unlock false [(id, ⟨d, 1, p⟩)] id
        ⟨some st, some fn, some st, true, some 0, true, true⟩ =
      (Except.ok (), [],
        [Event.fstatSys d, Event.readlinkSys d, Event.statSys fn, Event.fsyncSys d,
          Event.lseekSys d, Event.unlinkSys fn, Event.closeSys d]) ∧
    (∀ st0 : StatInfo, st0.nlink = 0 →
      unlock false [(id, ⟨d, 1, p⟩)] id
          ⟨some st0, some fn, some st, true, some 0, true, true⟩ =
        (Except.ok (), [],
          [Event.fstatSys d, Event.readlinkSys d, Event.closeSys d])) := by
  constructor
  · simp [unlock, release, mapFind, mapUpdate, mapErase, keyEquiv_self, hn]
  · intro st0 h0
    simp [unlock, release, mapFind, mapUpdate, mapErase, keyEquiv_self, h0]

/-- Witness for the amended claim C3 at a concrete registry entry. -/
theorem claim3_witness :
    unlock false [(⟨2, 3⟩, ⟨5, 1, 9⟩)] ⟨2, 3⟩
        ⟨some ⟨2, 3, 1⟩, some "x.lock", some ⟨2, 3, 1⟩, true, some 0, true, true⟩ =
      (Except.ok (), [],
        [Event.fstatSys 5, Event.readlinkSys 5, Event.statSys "x.lock",
          Event.fsyncSys 5, Event.lseekSys 5, Event.unlinkSys "x.lock",
          Event.closeSys 5]) :=
  (claim3_release_order ⟨2, 3⟩ 5 9 "x.lock" ⟨2, 3, 1⟩ (by decide)).1

/-- Claim C8 evaluated at the failing input: releasing the only lock on an
identity whose lockfile was deleted externally while held (the descriptor
link count is zero at release time) succeeds silently — the registry entry
is erased and the descriptor closed with no error of any class — although
the claim and the repository README require a lock-not-held error
signalling the possibly lost lock. -/
theorem claim8_deleted_lockfile_silent :
    unlock false [(⟨4, 4⟩, ⟨6, 1, 11⟩)] ⟨4, 4⟩
        ⟨some ⟨4, 4, 0⟩, some "gone.lock", none, true, none, true, true⟩ =
      (Except.ok (), [], [Event.fstatSys 6, Event.readlinkSys 6, Event.closeSys 6]) := by
  rfl

/-- Counterexample to claim C6 as stated: in the identity-keyed revision
the lock-guard constructor calls locker::lock directly, with no name
validation; on an empty filename the acquisition issues the open system
call (so a syscall does occur) and fails with the open-failure error of
the input-output class, not with an invalid-name error. -/
theorem claim6_counterexample :
    lockLoop 7 "" [] [⟨none, none, true, none⟩] =
      (some (Except.error LockerError.openFail), [], [Event.openSys ""]) ∧
    LockerError.openFail ≠ LockerError.invalidName :=
  ⟨rfl, by decide⟩

/-- Claim C6 amended: in the string-keyed revision, try_lock (and hence
the lock guard built on it) rejects an empty filename or a name ending in
a path separator with the invalid-name error before any system call (the
syscall trace is empty); in the identity-keyed revision the guard
constructor instead issues the open system call first, and an empty
filename makes the acquisition fail with the open error after that
syscall. -/
theorem claim6_name_validation (env : FsEnv) (r : SRegistry) (fn : String)
    (hbad : fn.isEmpty = true ∨ lastChar fn = some '/') :
    tryLockValidating env r fn = (Except.error LockerError.invalidName, []) ∧
    ∀ (p : Nat) (r2 : Registry) (e : LockTry) (es : List LockTry),
      e.openResult = none →
      lockLoop p "" r2 (e :: es) =
        (some (Except.error LockerError.openFail), r2, [Event.openSys ""]) := by
  constructor
  · unfold tryLockValidating
    rcases hbad with h | h <;> simp [h]
  · intro p r2 e es hopen
    simp [lockLoop, lockStep, hopen]

/-- Witness for the amended claim C6: a name consisting of a directory
slash is rejected with no syscall, and the identity-keyed acquisition of
an empty name fails with the open error after the open syscall. -/
theorem claim6_witness :
    tryLockValidating ⟨fun _ => true, fun _ => true, fun _ => some 3, fun _ => true⟩
        [] "dir/" = (Except.error LockerError.invalidName, []) ∧
    lockLoop 9 "" [] [⟨none, none, true, none⟩, ⟨none, none, true, none⟩] =
      (some (Except.error LockerError.openFail), [], [Event.openSys ""]) := by
  have h := claim6_name_validation
    ⟨fun _ => true, fun _ => true, fun _ => some 3, fun _ => true⟩ [] "dir/"
    (Or.inr rfl)
  exact ⟨h.1, h.2 9 [] ⟨none, none, true, none⟩ [⟨none, none, true, none⟩] rfl⟩

/-- Claim C7: for a memory-mapped view with element width w over a file,
the element count is the byte length divided by w rounded down (trailing
partial-element bytes are ignored), checked access succeeds exactly on
indices below the count, and access at the count always fails with the
index-out-of-range error. -/
theorem claim7_map_truncation_and_bounds (w : Nat) (fn : String) (e : MMapEnv)
    (m : MemoryMap) (hw : 0 < w) (hinit : xmapInit w fn e = Except.ok m) :
    (m.elemWidth = w ∧ m.dataSize = m.bytes.length / w ∧
      m.dataSize * w ≤ m.bytes.length ∧
      m.bytes.length < (m.dataSize + 1) * w) ∧
    (∀ i, i < m.dataSize ↔ ∃ xs, m.atIdx i = Except.ok xs) ∧
    m.atIdx m.dataSize = Except.error LockerError.indexOutOfRange := by
  unfold xmapInit at hinit
  by_cases h1 : (fn.isEmpty || !e.fileExists || !e.isRegular) = true
  · rw [if_pos h1] at hinit
    cases hinit
  · rw [if_neg h1] at hinit
    cases hbs : e.fstatBytes with
    | none => rw [hbs] at hinit; cases hinit
    | some bs =>
      rw [hbs] at hinit
      dsimp only at hinit
      by_cases h2 : e.mmapOk = true
      · rw [if_pos h2] at hinit
        injection hinit with hm
        subst hm
        refine ⟨⟨rfl, rfl, Nat.div_mul_le_self bs.length w, ?_⟩, ?_, ?_⟩
        · have := (Nat.div_lt_iff_lt_mul hw).mp
            (Nat.lt_succ_self (bs.length / w))
          exact this
        · intro i
          constructor
          · intro hi
            refine ⟨(bs.drop (i * w)).take w, ?_⟩
            unfold MemoryMap.atIdx
            rw [if_neg (by exact Nat.not_le.mpr hi)]
          · rintro ⟨xs, hxs⟩
            unfold MemoryMap.atIdx at hxs
            by_cases hle : bs.length / w ≤ i
            · rw [if_pos hle] at hxs
              cases hxs
            · exact Nat.not_le.mp hle
        · unfold MemoryMap.atIdx
          rw [if_pos (Nat.le_refl _)]
      · rw [if_neg h2] at hinit
        cases hinit

/-- Witness for claim C7: a seven-byte file viewed with element width two
exposes three elements; access at index one succeeds and access at the
element count fails. -/
theorem claim7_witness :
    ((⟨2, [10, 11, 12, 13, 14, 15, 16], 3⟩ : MemoryMap).atIdx 3 =
      Except.error LockerError.indexOutOfRange) ∧
    (1 < (⟨2, [10, 11, 12, 13, 14, 15, 16], 3⟩ : MemoryMap).dataSize ↔
      ∃ xs, (⟨2, [10, 11, 12, 13, 14, 15, 16], 3⟩ : MemoryMap).atIdx 1 =
        Except.ok xs) := by
  have h := claim7_map_truncation_and_bounds 2 "a.txt"
    ⟨true, true, some [10, 11, 12, 13, 14, 15, 16], true⟩
    ⟨2, [10, 11, 12, 13, 14, 15, 16], 3⟩ (by decide) rfl
  exact ⟨h.2.2, h.2.1 1⟩

/-- Claim C2: with paths A, B, C where the lock on B is held by another
process (its non-blocking flock fails) while A and C are free, the vector
overload of try_lock on the list A, B, C returns false, releases the
already-acquired locks of the batch in reverse order of acquisition (here
the single lock on A; C is never acquired), and leaves the registry with
none of A, B, C locked. -/
theorem claim2_batch_rollback (env : FsEnv) (a b c : String) (fa fb : Nat)
    (ha : stripSlashes a = a) (hb : stripSlashes b = b)
    (ha0 : a.isEmpty = false) (hb0 : b.isEmpty = false) (hab : a ≠ b)
    (hdirA : env.dirOk (dirnameOf a) = true) (hfileA : env.fileOk a = true)
    (hdirB : env.dirOk (dirnameOf b) = true) (hfileB : env.fileOk b = true)
    (hopenA : env.openFd a = some fa) (hopenB : env.openFd b = some fb)
    (hfreeA : env.flockFree a = true) (hfreeB : env.flockFree b = false) :
    tryLockVec env [] [a, b, c] = Except.ok (false, [], [a]) := by
  have hab2 : (a == b) = false := beq_eq_false_iff_ne.mpr hab
  simp [tryLockVec, tryLockVecAux, tryLockOne, unlockOne, List.find?, List.filter,
    ha, hb, ha0, hb0, hab2, hdirA, hfileA, hdirB, hfileB, hopenA, hopenB,
    hfreeA, hfreeB]

/-- Witness for claim C2 at concrete paths a, b, c with b held elsewhere. -/
theorem claim2_witness :
    tryLockVec
        ⟨fun _ => true, fun _ => true,
          fun n => if n = "b" then some 2 else some 1,
          fun n => !(n == "b")⟩ [] ["a", "b", "c"] =
      Except.ok (false, [], ["a"]) :=
  claim2_batch_rollback
    ⟨fun _ => true, fun _ => true,
      fun n => if n = "b" then some 2 else some 1,
      fun n => !(n == "b")⟩ "a" "b" "c" 1 2
    rfl rfl rfl rfl (by decide) rfl rfl rfl rfl (by decide) (by decide)
    (by decide) (by decide)

/-- Claim C1: one process acquires the lock on a path twice — the first
acquisition inserts the registry entry with count one, the second is the
reentrant increment to count two — then releasing once leaves the entry
present with count one (the lock is still held and observable in the
registry), and releasing a second time erases the entry, the trace showing
the close of its descriptor. -/
theorem claim1_reentrant_lock_unlock (fn : String) (p fd1 fd2 : Nat)
    (st : StatInfo) (hn : 0 < st.nlink) :
    lockLoop p fn [] [⟨some fd1, some st, true, some st⟩] =
      (some (Except.ok (⟨st.ino, st.dev⟩, ⟨fd1, 1, p⟩)),
        [(⟨st.ino, st.dev⟩, ⟨fd1, 1, p⟩)],
        [Event.openSys fn, Event.fstatSys fd1, Event.flockSys fd1,
          Event.statSys fn]) ∧
    lockLoop p fn [(⟨st.ino, st.dev⟩, ⟨fd1, 1, p⟩)]
        [⟨some fd2, some st, true, some st⟩] =
      (some (Except.ok (⟨st.ino, st.dev⟩, ⟨fd1, 2, p⟩)),
        [(⟨st.ino, st.dev⟩, ⟨fd1, 2, p⟩)],
        [Event.openSys fn, Event.fstatSys fd2, Event.closeSys fd2]) ∧
    unlock false [(⟨st.ino, st.dev⟩, ⟨fd1, 2, p⟩)] ⟨st.ino, st.dev⟩
        ⟨some st, some fn, some st, true, some 1, true, true⟩ =
      (Except.ok (), [(⟨st.ino, st.dev⟩, ⟨fd1, 1, p⟩)], []) ∧
    mapContains [(⟨st.ino, st.dev⟩, ⟨fd1, 1, p⟩)] ⟨st.ino, st.dev⟩ = true ∧
    unlock false [(⟨st.ino, st.dev⟩, ⟨fd1, 1, p⟩)] ⟨st.ino, st.dev⟩
        ⟨some st, some fn, some st, true, some 1, true, true⟩ =
      (Except.ok (), [],
        [Event.fstatSys fd1, Event.readlinkSys fd1, Event.statSys fn,
          Event.fsyncSys fd1, Event.lseekSys fd1, Event.closeSys fd1]) := by
  refine ⟨?_, ?_, ?_, ?_, ?_⟩
  · simp [lockLoop, lockStep, lockKernel, mapFind, mapInsert, mapContains, hn]
  · simp [lockLoop, lockStep, lockKernel, mapFind, mapUpdate, keyEquiv_self, hn]
  · simp [unlock, release, mapFind, mapUpdate, mapErase, keyEquiv_self, hn]
  · simp [mapContains, mapFind, keyEquiv_self]
  · simp [unlock, release, mapFind, mapUpdate, mapErase, keyEquiv_self, hn]

/-- Witness for claim C1 at a concrete path, pid and identity. -/
theorem claim1_witness :
    lockLoop 9 "a.lock" [] [⟨some 3, some ⟨1, 2, 1⟩, true, some ⟨1, 2, 1⟩⟩] =
      (some (Except.ok (⟨1, 2⟩, ⟨3, 1, 9⟩)), [(⟨1, 2⟩, ⟨3, 1, 9⟩)],
        [Event.openSys "a.lock", Event.fstatSys 3, Event.flockSys 3,
          Event.statSys "a.lock"]) ∧
    unlock false [(⟨1, 2⟩, ⟨3, 1, 9⟩)] ⟨1, 2⟩
        ⟨some ⟨1, 2, 1⟩, some "a.lock", some ⟨1, 2, 1⟩, true, some 1, true, true⟩ =
      (Except.ok (), [],
        [Event.fstatSys 3, Event.readlinkSys 3, Event.statSys "a.lock",
          Event.fsyncSys 3, Event.lseekSys 3, Event.closeSys 3]) := by
  have h := claim1_reentrant_lock_unlock "a.lock" 9 3 4 ⟨1, 2, 1⟩ (by decide)
  exact ⟨h.1, h.2.2.2.2⟩

/-- Claim C10: when the identity is present in the registry but was
recorded by a different pid, locker::lock erases that entry and leaves its
stored descriptor untouched — the trace contains no close of it and no
operation on it at all — then takes a fresh kernel flock on the newly
opened descriptor and registers the identity with count one under the
calling pid. -/
theorem claim10_foreign_pid_fresh_lock (fn : String) (st : StatInfo)
    (d fd : Nat) (c : Int) (q p : Nat) (hpq : p ≠ q) (hn : 0 < st.nlink) :
    lockStep p fn [(⟨st.ino, st.dev⟩, ⟨d, c, q⟩)] ⟨some fd, some st, true, some st⟩ =
      (some (Except.ok (⟨st.ino, st.dev⟩, ⟨fd, 1, p⟩)),
        [(⟨st.ino, st.dev⟩, ⟨fd, 1, p⟩)],
        [Event.openSys fn, Event.fstatSys fd, Event.flockSys fd,
          Event.statSys fn]) ∧
    Event.closeSys d ∉
      [Event.openSys fn, Event.fstatSys fd, Event.flockSys fd,
        Event.statSys fn] := by
  have hqp : q ≠ p := Ne.symm hpq
  constructor
  · simp [lockStep, lockKernel, mapFind, mapErase, mapInsert, mapContains,
      keyEquiv_self, hqp, hn]
  · simp

/-- Witness for claim C10 at a concrete registry inherited across fork. -/
theorem claim10_witness :
    lockStep 6 "k.lock" [(⟨1, 2⟩, ⟨3, 4, 5⟩)]
        ⟨some 7, some ⟨1, 2, 1⟩, true, some ⟨1, 2, 1⟩⟩ =
      (some (Except.ok (⟨1, 2⟩, ⟨7, 1, 6⟩)), [(⟨1, 2⟩, ⟨7, 1, 6⟩)],
        [Event.openSys "k.lock", Event.fstatSys 7, Event.flockSys 7,
          Event.statSys "k.lock"]) :=
  (claim10_foreign_pid_fresh_lock "k.lock" ⟨1, 2, 1⟩ 3 7 4 5 6
    (by decide) (by decide)).1

theorem lockKernel_ok_inv {p : Nat} {fn : String} {r0 : Registry} {fd : Nat}
    {st : StatInfo} {fk : Bool} {rs : Option StatInfo} {pre : List Event}
    {id : Key} {v : Value} {r2 : Registry} {evs : List Event}
    (h : lockKernel p fn r0 fd st fk rs pre = (some (Except.ok (id, v)), r2, evs)) :
    fk = true ∧ ∃ ns, rs = some ns ∧
      0 < ns.nlink ∧ ns.ino = st.ino ∧ ns.dev = st.dev ∧
      id = ⟨st.ino, st.dev⟩ ∧ v = ⟨fd, 1, p⟩ ∧ mapContains r2 id = true := by
  unfold lockKernel at h
  by_cases hfk : fk = true
  · rw [if_pos hfk] at h
    cases hrs : rs with
    | none => rw [hrs] at h; simp at h
    | some ns =>
      rw [hrs] at h
      dsimp only at h
      by_cases hcond : 0 < ns.nlink ∧ ns.ino = st.ino ∧ ns.dev = st.dev
      · rw [if_pos hcond] at h
        simp only [Prod.mk.injEq, Option.some.injEq, Except.ok.injEq] at h
        obtain ⟨⟨hid, hv⟩, hr, hevs⟩ := h
        refine ⟨hfk, ns, rfl, hcond.1, hcond.2.1, hcond.2.2, hid.symm, hv.symm, ?_⟩
        rw [← hr, ← hid]
        exact mapContains_insert_self r0 _ _
      · rw [if_neg hcond] at h
        simp at h
  · rw [if_neg hfk] at h
    simp at h

/-- Claim C4: the acquisition protocol re-stats the path after taking the
kernel lock and compares device and inode against the identity captured at
open time. First part: a successful iteration is either the reentrant path
(the identity was already registered for this pid) or a fresh acquisition
in which the identity returned and registered equals exactly the identity
the descriptor obtained at open time, the kernel flock was taken on that
same descriptor, and the re-stat returned the same identity still linked.
Second part: an iteration whose re-stat mismatches closes the descriptor
and produces no result, so the whole protocol restarts from the open. -/
theorem claim4_identity_stable (p : Nat) (fn : String) (r : Registry) (e : LockTry) :
    (∀ id v r' evs,
      lockStep p fn r e = (some (Except.ok (id, v)), r', evs) →
        (∃ kv, mapFind r id = some kv ∧ kv.2.pid = p) ∨
        (∃ fd st ns, e.openResult = some fd ∧ e.fstatResult = some st ∧
          e.flockOk = true ∧ e.restatResult = some ns ∧
          0 < ns.nlink ∧ ns.ino = st.ino ∧ ns.dev = st.dev ∧
          id = ⟨st.ino, st.dev⟩ ∧ v = ⟨fd, 1, p⟩ ∧
          mapContains r' id = true)) ∧
    (∀ fd st ns, e.openResult = some fd → e.fstatResult = some st →
      mapFind r ⟨st.ino, st.dev⟩ = none → e.flockOk = true →
      e.restatResult = some ns →
      ¬(0 < ns.nlink ∧ ns.ino = st.ino ∧ ns.dev = st.dev) →
      lockStep p fn r e =
        (none, r, [Event.openSys fn, Event.fstatSys fd, Event.flockSys fd,
          Event.statSys fn, Event.closeSys fd])) := by
  constructor
  · intro id v r' evs heq
    unfold lockStep at heq
    cases ho : e.openResult with
    | none => rw [ho] at heq; simp at heq
    | some fd =>
      rw [ho] at heq
      cases hf : e.fstatResult with
      | none => rw [hf] at heq; simp at heq
      | some st =>
        rw [hf] at heq
        dsimp only at heq
        cases hfind : mapFind r ⟨st.ino, st.dev⟩ with
        | some kv =>
          rw [hfind] at heq
          dsimp only at heq
          by_cases hpid : kv.2.pid = p
          · rw [if_pos hpid] at heq
            simp only [Prod.mk.injEq, Option.some.injEq, Except.ok.injEq] at heq
            obtain ⟨⟨hid, hv⟩, hr, hevs⟩ := heq
            left
            exact ⟨kv, by rw [← hid]; exact hfind, hpid⟩
          · rw [if_neg hpid] at heq
            obtain ⟨hfk, ns, hrs, h1, h2, h3, hid, hv, hcont⟩ := lockKernel_ok_inv heq
            exact Or.inr ⟨fd, st, ns, rfl, rfl, hfk, hrs, h1, h2, h3, hid, hv, hcont⟩
        | none =>
          rw [hfind] at heq
          dsimp only at heq
          obtain ⟨hfk, ns, hrs, h1, h2, h3, hid, hv, hcont⟩ := lockKernel_ok_inv heq
          exact Or.inr ⟨fd, st, ns, rfl, rfl, hfk, hrs, h1, h2, h3, hid, hv, hcont⟩
  · intro fd st ns ho hf hfind hflock hrs hcond
    simp [lockStep, lockKernel, ho, hf, hfind, hflock, hrs, hcond]

/-- Witness for claim C4: a fresh successful acquisition yields the
right-hand characterization, and a concrete re-stat mismatch makes the
iteration retry with the descriptor closed. -/
theorem claim4_witness :
    ((∃ kv, mapFind ([] : Registry) ⟨1, 2⟩ = some kv ∧ kv.2.pid = 8) ∨
      (∃ fd st ns,
        (⟨some 5, some ⟨1, 2, 1⟩, true, some ⟨1, 2, 1⟩⟩ : LockTry).openResult = some fd ∧
        (⟨some 5, some ⟨1, 2, 1⟩, true, some ⟨1, 2, 1⟩⟩ : LockTry).fstatResult = some st ∧
        (⟨some 5, some ⟨1, 2, 1⟩, true, some ⟨1, 2, 1⟩⟩ : LockTry).flockOk = true ∧
        (⟨some 5, some ⟨1, 2, 1⟩, true, some ⟨1, 2, 1⟩⟩ : LockTry).restatResult = some ns ∧
        0 < ns.nlink ∧ ns.ino = st.ino ∧ ns.dev = st.dev ∧
        (⟨1, 2⟩ : Key) = ⟨st.ino, st.dev⟩ ∧ (⟨5, 1, 8⟩ : Value) = ⟨fd, 1, 8⟩ ∧
        mapContains [(⟨1, 2⟩, ⟨5, 1, 8⟩)] ⟨1, 2⟩ = true)) ∧
    lockStep 8 "w.lock" [] ⟨some 5, some ⟨1, 2, 1⟩, true, some ⟨3, 4, 1⟩⟩ =
      (none, [], [Event.openSys "w.lock", Event.fstatSys 5, Event.flockSys 5,
        Event.statSys "w.lock", Event.closeSys 5]) := by
  have h := claim4_identity_stable 8 "w.lock" [] ⟨some 5, some ⟨1, 2, 1⟩, true, some ⟨1, 2, 1⟩⟩
  have h2 := claim4_identity_stable 8 "w.lock" [] ⟨some 5, some ⟨1, 2, 1⟩, true, some ⟨3, 4, 1⟩⟩
  constructor
  · exact h.1 ⟨1, 2⟩ ⟨5, 1, 8⟩ [(⟨1, 2⟩, ⟨5, 1, 8⟩)]
      [Event.openSys "w.lock", Event.fstatSys 5, Event.flockSys 5, Event.statSys "w.lock"]
      (by rfl)
  · exact h2.2 5 ⟨1, 2, 1⟩ ⟨3, 4, 1⟩ rfl rfl rfl rfl rfl (by decide)

/-- Claim C5: for every count of processes, if each process acquires the
lock on the same path, reads the shared counter, increments it, writes it
back and releases the lock, then every reachable state of the interleaved
system in which all processes have finished stores exactly that count: no
update is lost under any interleaving. -/
theorem claim5_no_lost_updates (n : Nat) (s : SysState n)
    (hreach : Relation.ReflTransGen CStep (initState n) s)
    (hdone : ∀ i : Fin n, s.procs i = PState.done) : s.file = n := by
  have hinv := cinv_reachable hreach
  rw [hinv.fileCount]
  unfold writtenCount
  calc (Finset.univ.sum fun i => countVal (s.procs i))
      = Finset.univ.sum fun _ : Fin n => 1 :=
        Finset.sum_congr rfl fun i _ => by rw [hdone i]; rfl
    _ = n := by simp

/-- Witness for claim C5 with one process: the four-step run acquire,
read, write, release ends with the counter equal to one. -/
theorem claim5_witness :
    (⟨Function.update (Function.update (Function.update (Function.update
        (fun _ : Fin 1 => PState.idle) 0 PState.acquired) 0 (PState.hasRead 0)) 0
        PState.written) 0 PState.done, 1, none⟩ : SysState 1).file = 1 := by
  apply claim5_no_lost_updates 1
  · exact Relation.ReflTransGen.tail (Relation.ReflTransGen.tail
      (Relation.ReflTransGen.tail (Relation.ReflTransGen.tail
        Relation.ReflTransGen.refl
        (CStep.acquire (initState 1) 0 rfl rfl))
        (CStep.readFile _ 0 (by decide)))
        (CStep.writeFile _ 0 0 (by decide)))
        (CStep.releaseLock _ 0 (by decide))
  · intro i
    fin_cases i
    decide

end Locker
